import Mathlib

/-!
Shallow embedding of the go-text/font face data model and of the
FaceMetrics / FaceOpentype query contracts.

The repository itself is purely declarative: src/face.go declares the
interfaces (FaceMetrics, FaceRenderer, Face), their documented contracts
and the primitive value types (GID, FontExtents, GlyphExtents);
src/unnamed/part_000 declares the opentype extension surface
(FaceOpentype, TablesLayout, TableFvar, IsGraphite).  No implementation
of the interfaces lives in this repository, so every operation below is
modelled from the spec's contract for that operation, faithful to the
spec's words; the declared types and doc comments of src/face.go are
kept as the shape of every signature.

Numeric representation: Go float32 metric values are modelled as exact
rationals (the contracts under verification are about which value is
returned, never about rounding), uint16 and uint32 values as Nat with
explicit range constraints where they matter, int32 values as Int with
an explicit int32-range constraint.
-/

set_option autoImplicit false

namespace GoFont

/-- GID is used to identify glyphs in a font (a uint32 in the source);
it is internal to the font and not a Unicode code point. -/
abbrev GID := Nat

/-- FontExtents exposes font-wide extent values, measured in font units
(src/face.go). -/
structure FontExtents where
  Ascender : ℚ
  Descender : ℚ
  LineGap : ℚ
deriving DecidableEq

/-- GlyphExtents exposes per-glyph extent values, measured in font units
(src/face.go). -/
structure GlyphExtents where
  XBearing : ℚ
  YBearing : ℚ
  Width : ℚ
  Height : ℚ
deriving DecidableEq

/-- Modelled from the spec: one variation axis of the fvar table, with its
declared minimum, default and maximum design-space values (spec section 3);
the axis records themselves are missing from src, which only declares
TableFvar as an opaque queryable unit. -/
structure VarAxis where
  Minimum : ℚ
  Default : ℚ
  Maximum : ℚ
deriving DecidableEq

/-- Modelled from the spec: one bitmap strike, i.e. a stored resolution
(pixels per em) together with the per-glyph extents stored at that
resolution (spec sections 3 and 4.1). -/
structure Strike where
  Ppem : Nat
  Glyphs : List (GID × GlyphExtents)
deriving DecidableEq

/-- Modelled from the spec: the static, post-construction data of a font
face that the FaceMetrics queries read.  The face is produced by an
external parser and never mutated (spec sections 3 and 5); src declares
only the interface, so the backing data is modelled here. -/
structure FaceData where
  /-- Explicit units-per-em value of the font file (a uint16 field), or
  none for formats without an explicit upem field. -/
  upem : Option Nat
  /-- Number of glyphs: glyph ids below this bound are valid for the face. -/
  glyphCount : Nat
  /-- Explicit glyph-name data, keyed by glyph id. -/
  glyphNames : List (GID × String)
  /-- Font-wide extents for horizontal text, when the table is present. -/
  hExtents : Option FontExtents
  /-- Font-wide extents for vertical text, when the table is present. -/
  vExtents : Option FontExtents
  /-- Character-to-glyph mapping (cmap): code point to glyph id. -/
  cmap : List (Int × GID)
  /-- Explicit horizontal advance data, keyed by glyph id. -/
  hAdvances : List (GID × ℚ)
  /-- Explicit vertical advance data, keyed by glyph id. -/
  vAdvances : List (GID × ℚ)
  /-- Per-glyph, per-axis variation deltas applied to explicit horizontal
  advances of variable fonts. -/
  hvarDeltas : List (GID × List ℚ)
  /-- Explicit glyph origins for horizontal text, keyed by glyph id; the
  coordinates are int32 values in the source signature. -/
  hOrigins : List (GID × Int × Int)
  /-- Explicit glyph origins for vertical text, keyed by glyph id. -/
  vOrigins : List (GID × Int × Int)
  /-- Extents of outline-backed glyphs, keyed by glyph id. -/
  outlineExtents : List (GID × GlyphExtents)
  /-- Stored bitmap strikes, one per stored resolution. -/
  strikes : List Strike
  /-- Whether the glyphs of this face are bitmap-backed. -/
  isBitmap : Bool
  /-- Variation axes of the font; empty for non-variable fonts. -/
  axes : List VarAxis
deriving DecidableEq

/-- Association-list lookup by key, modelling keyed table access. -/
def lookupA {β : Type} (k : Nat) : List (Nat × β) → Option β
  | [] => none
  | (a, b) :: t => if a = k then some b else lookupA k t

/-- Association-list lookup with Int keys, modelling cmap access. -/
def lookupR {β : Type} (k : Int) : List (Int × β) → Option β
  | [] => none
  | (a, b) :: t => if a = k then some b else lookupR k t

/-- Global units-per-em fallback; spec section 9 makes it a process-wide
named constant. -/
def upemFallback : Nat := 1000

/-- Modelled from the spec: Upem returns the units per em of the font
file; if the font provides no explicit value it returns 1000 as the
fallback value (src/face.go doc comment, spec section 4.1). -/
def FaceData.Upem (f : FaceData) : Nat :=
  match f.upem with
  | some u => u
  | none => upemFallback

/-- Modelled from the spec: a glyph id is valid for the face when it lies
below the face's glyph count (spec section 7). -/
def FaceData.validGID (f : FaceData) (g : GID) : Prop := g < f.glyphCount

instance (f : FaceData) (g : GID) : Decidable (f.validGID g) :=
  inferInstanceAs (Decidable (g < f.glyphCount))

/-- Modelled from the spec: GlyphName returns the name of the given glyph,
or an empty string if the glyph is invalid or has no name (src/face.go). -/
def FaceData.GlyphName (f : FaceData) (g : GID) : String :=
  if g < f.glyphCount then
    match lookupA g f.glyphNames with
    | some n => n
    | none => ("")
  else ("")

/-- Modelled from the spec: FontHExtents returns the extents of the font
for horizontal text in font units, or false if not available
(src/face.go); the coords argument only matters for variable fonts and
the modelled extents are the ones at the given coordinates. -/
def FaceData.FontHExtents (f : FaceData) (_coords : List ℚ) : Option FontExtents :=
  f.hExtents

/-- Modelled from the spec: FontVExtents is the same as FontHExtents, but
for vertical text (src/face.go). -/
def FaceData.FontVExtents (f : FaceData) (_coords : List ℚ) : Option FontExtents :=
  f.vExtents

/-- Modelled from the spec: NominalGlyph returns the glyph used to
represent the given rune, or false if not found (src/face.go,
src/unnamed/part_000). -/
def FaceData.NominalGlyph (f : FaceData) (r : Int) : Option GID :=
  lookupR r f.cmap

/-- Dot product of a delta row with normalized coordinates, used to apply
variation deltas to an explicit advance. -/
def dotQ : List ℚ → List ℚ → ℚ
  | a :: as, b :: bs => a * b + dotQ as bs
  | _, _ => 0

/-- Modelled from the spec: HorizontalAdvance returns the horizontal
advance in font units; when no data is available but the glyph index is
valid it returns the upem number as default value, and if the glyph is
invalid it returns 0 (src/face.go doc comment, spec sections 4.1 and 8). -/
def FaceData.HorizontalAdvance (f : FaceData) (g : GID) (coords : List ℚ) : ℚ :=
  if g < f.glyphCount then
    match lookupA g f.hAdvances with
    | some adv => adv + dotQ ((lookupA g f.hvarDeltas).getD []) coords
    | none => (f.Upem : ℚ)
  else 0

/-- Modelled from the spec: VerticalAdvance is the same as
HorizontalAdvance, but for vertical advance (src/face.go). -/
def FaceData.VerticalAdvance (f : FaceData) (g : GID) (_coords : List ℚ) : ℚ :=
  if g < f.glyphCount then
    match lookupA g f.vAdvances with
    | some adv => adv
    | none => (f.Upem : ℚ)
  else 0

/-- Modelled from the spec: GlyphHOrigin fetches the (X,Y) coordinates of
the origin (in font units, int32 in the source signature) for a glyph ID
for horizontal text, or false if not available (src/face.go). -/
def FaceData.GlyphHOrigin (f : FaceData) (g : GID) (_coords : List ℚ) : Option (Int × Int) :=
  if g < f.glyphCount then lookupA g f.hOrigins else none

/-- Modelled from the spec: GlyphVOrigin is the same as GlyphHOrigin, but
for vertical text segments (src/face.go). -/
def FaceData.GlyphVOrigin (f : FaceData) (g : GID) (_coords : List ℚ) : Option (Int × Int) :=
  if g < f.glyphCount then lookupA g f.vOrigins else none

/-- Absolute distance between a stored resolution and a requested pixel
size. -/
def strikeDist (ppem req : Nat) : Nat :=
  max ppem req - min ppem req

/-- Modelled from the spec: between two candidate strikes, keep the one at
the smallest absolute distance to the requested pixel size; on an exact
tie keep the larger available resolution (spec section 8 tie-break). -/
def betterStrike (req : Nat) (a b : Strike) : Strike :=
  if strikeDist b.Ppem req < strikeDist a.Ppem req then b
  else if strikeDist a.Ppem req < strikeDist b.Ppem req then a
  else if a.Ppem < b.Ppem then b
  else a

/-- Modelled from the spec: select, among the stored strikes, the one
closest to the requested pixel size (spec sections 4.1 and 8). -/
def chooseStrike (req : Nat) : List Strike → Option Strike
  | [] => none
  | s :: rest =>
    match chooseStrike req rest with
    | none => some s
    | some b => some (betterStrike req s b)

/-- Modelled from the spec: GlyphExtents retrieves the extents for a
specified glyph, or false if not available; for bitmap glyphs the closest
stored resolution to the requested pixel size is selected, for outline
glyphs the pixel size is ignored (src/face.go doc comment, spec 4.1). -/
def FaceData.GlyphExtents (f : FaceData) (g : GID) (_coords : List ℚ)
    (xPpem _yPpem : Nat) : Option GlyphExtents :=
  if g < f.glyphCount then
    if f.isBitmap then
      match chooseStrike xPpem f.strikes with
      | some s => lookupA g s.Glyphs
      | none => none
    else lookupA g f.outlineExtents
  else none

/-- Clamping of a design-space value to the declared range of an axis. -/
def clampAxis (a : VarAxis) (v : ℚ) : ℚ :=
  min (max v a.Minimum) a.Maximum

/-- Modelled from the spec: normalization of one design-space coordinate
against one axis; the value is clamped to the axis range, the minimum and
maximum map to -1 and 1, the default maps to 0, values in between are
interpolated linearly on each side of the default (spec section 3). -/
def normalizeAxis (a : VarAxis) (v : ℚ) : ℚ :=
  if clampAxis a v < a.Default then
    if a.Default = a.Minimum then 0
    else (clampAxis a v - a.Default) / (a.Default - a.Minimum)
  else if a.Default < clampAxis a v then
    if a.Default = a.Maximum then 0
    else (clampAxis a v - a.Default) / (a.Maximum - a.Default)
  else 0

/-- Normalization of a coordinate sequence against an axis sequence,
pointwise; excess coordinates or axes are dropped, so a sequence of the
wrong axis count is handled without failure. -/
def normCoords : List VarAxis → List ℚ → List ℚ
  | a :: as, v :: vs => normalizeAxis a v :: normCoords as vs
  | _, _ => []

/-- Modelled from the spec: NormalizeVariations normalizes the given
design-space coordinates, mapping the minimum and maximum values of each
axis to [-1,1] and the default axis value to 0; for non-variable fonts
(no axes) it is a no-op returning the empty sequence (src/face.go doc
comment, spec sections 3 and 4.1). -/
def FaceData.NormalizeVariations (f : FaceData) (coords : List ℚ) : List ℚ :=
  normCoords f.axes coords

/-- Range of a 32-bit signed integer, the declared type of glyph origin
coordinates in src/face.go. -/
def Int32Range (n : Int) : Prop := -(2 ^ 31) ≤ n ∧ n < 2 ^ 31

instance (n : Int) : Decidable (Int32Range n) :=
  inferInstanceAs (Decidable (_ ∧ _))

/-- Modelled from the spec: well-formedness of the face data handed over
by the external parser, which hands instances to this core as
already-valid data (spec section 6): an explicit upem value is a nonzero
uint16, each axis has its default between its minimum and maximum, and
stored origin coordinates fit the declared int32 type. -/
def FaceWF (f : FaceData) : Prop :=
  (∀ u ∈ f.upem, 0 < u ∧ u < 65536) ∧
  (∀ a ∈ f.axes, a.Minimum ≤ a.Default ∧ a.Default ≤ a.Maximum) ∧
  (∀ p ∈ f.hOrigins, Int32Range p.2.1 ∧ Int32Range p.2.2) ∧
  (∀ p ∈ f.vOrigins, Int32Range p.2.1 ∧ Int32Range p.2.2)

/-! Opentype extension surface (src/unnamed/part_000).  The table types
are declared there as empty stubs whose contents live in an external
decoder, so each table is modelled from the spec with minimal content and
the emptiness rule stated in the source comments: an absent GDEF has a
nil Class, absent GSUB/GPOS have a nil slice of lookups, and the AAT
tables use an empty/zero state (spec sections 3 and 9). -/

/-- GDEF table; an absent table has a nil Class (src/unnamed/part_000). -/
structure TableGDEF where
  Class : Option (List (GID × Nat))
deriving DecidableEq

/-- Trak table (AAT tracking); modelled with its tracking entries. -/
structure TableTrak where
  Entries : List ℚ
deriving DecidableEq

/-- Ankr table (AAT anchor points); modelled with its anchors. -/
structure TableAnkr where
  Anchors : List (GID × Int × Int)
deriving DecidableEq

/-- Feat table (AAT feature names); modelled with its feature names. -/
structure TableFeat where
  Names : List Nat
deriving DecidableEq

/-- Morx table (AAT metamorphosis); modelled with its chains. -/
structure TableMorx where
  Chains : List Nat
deriving DecidableEq

/-- Kernx table (AAT kern and kerx); modelled with its subtables. -/
structure TableKernx where
  Subtables : List Nat
deriving DecidableEq

/-- GSUB table; an absent table has a nil slice of lookups
(src/unnamed/part_000). -/
structure TableGSUB where
  Lookups : List Nat
deriving DecidableEq

/-- GPOS table; an absent table has a nil slice of lookups
(src/unnamed/part_000). -/
structure TableGPOS where
  Lookups : List Nat
deriving DecidableEq

/-- TableFvar is the font variations table; modelled, per spec section 3,
as the list of declared variation axes exposed losslessly. -/
structure TableFvar where
  Axes : List VarAxis
deriving DecidableEq

/-- TablesLayout exposes the advanced layout tables; all the fields are
optional, since a font may only provide a subset of these tables
(src/unnamed/part_000). -/
structure TablesLayout where
  GDEF : TableGDEF
  Trak : TableTrak
  Ankr : TableAnkr
  Feat : TableFeat
  Morx : TableMorx
  Kern : TableKernx
  Kerx : TableKernx
  GSUB : TableGSUB
  GPOS : TableGPOS
deriving DecidableEq

/-- Table-specific emptiness rule for GDEF: no glyph-class assignment. -/
def TableGDEF.isEmpty (t : TableGDEF) : Bool := t.Class.isNone

/-- Table-specific emptiness rule for Trak. -/
def TableTrak.isEmpty (t : TableTrak) : Bool := t.Entries.isEmpty

/-- Table-specific emptiness rule for Ankr. -/
def TableAnkr.isEmpty (t : TableAnkr) : Bool := t.Anchors.isEmpty

/-- Table-specific emptiness rule for Feat. -/
def TableFeat.isEmpty (t : TableFeat) : Bool := t.Names.isEmpty

/-- Table-specific emptiness rule for Morx. -/
def TableMorx.isEmpty (t : TableMorx) : Bool := t.Chains.isEmpty

/-- Table-specific emptiness rule for Kernx. -/
def TableKernx.isEmpty (t : TableKernx) : Bool := t.Subtables.isEmpty

/-- Table-specific emptiness rule for GSUB: no lookups. -/
def TableGSUB.isEmpty (t : TableGSUB) : Bool := t.Lookups.isEmpty

/-- Table-specific emptiness rule for GPOS: no lookups. -/
def TableGPOS.isEmpty (t : TableGPOS) : Bool := t.Lookups.isEmpty

/-- Modelled from the spec: the static data of an opentype face — its
metrics data plus the decoded advanced layout tables, each independently
optional, plus the embedded Graphite smart-layout capability and its
veto switch (src/unnamed/part_000, spec section 4.4). -/
structure FaceOT where
  metrics : FaceData
  gdefClass : Option (List (GID × Nat))
  trakEntries : List ℚ
  ankrAnchors : List (GID × Int × Int)
  featNames : List Nat
  morxChains : List Nat
  kernSubtables : List Nat
  kerxSubtables : List Nat
  gsubLookups : List Nat
  gposLookups : List Nat
  hasGraphite : Bool
  graphiteVeto : Bool
deriving DecidableEq

/-- Modelled from the spec: TablesLayout fetches the advanced Opentype
and AAT layout tables of the font; an absent table is returned in its
empty state, never as a distinct null (src/unnamed/part_000, spec
section 3). -/
def FaceOT.TablesLayout (f : FaceOT) : TablesLayout where
  GDEF := ⟨f.gdefClass⟩
  Trak := ⟨f.trakEntries⟩
  Ankr := ⟨f.ankrAnchors⟩
  Feat := ⟨f.featNames⟩
  Morx := ⟨f.morxChains⟩
  Kern := ⟨f.kernSubtables⟩
  Kerx := ⟨f.kerxSubtables⟩
  GSUB := ⟨f.gsubLookups⟩
  GPOS := ⟨f.gposLookups⟩

/-- Modelled from the spec: Variations returns the variations for the
font, or an empty table; never a failure (src/unnamed/part_000, spec
section 4.4). -/
def FaceOT.Variations (f : FaceOT) : TableFvar :=
  ⟨f.metrics.axes⟩

/-- Modelled from the spec: IsGraphite returns true if the font has
Graphite capabilities, together with the face Graphite table-loading
operates against; a face may veto the capability even when the tables
exist (src/unnamed/part_000, spec section 4.4). -/
def FaceOT.IsGraphite (f : FaceOT) : FaceOT × Bool :=
  (f, f.hasGraphite && !f.graphiteVeto)

/-- Modelled from the spec: the face stores none of the optional advanced
layout tables — no GDEF, no GSUB/GPOS lookups, none of the AAT tables,
and no embedded Graphite smart-layout tables (the spec section 8
scenario of a face with no advanced layout tables at all). -/
def noAdvancedTables (f : FaceOT) : Prop :=
  f.gdefClass = none ∧ f.trakEntries = [] ∧ f.ankrAnchors = [] ∧
  f.featNames = [] ∧ f.morxChains = [] ∧ f.kernSubtables = [] ∧
  f.kerxSubtables = [] ∧ f.gsubLookups = [] ∧ f.gposLookups = [] ∧
  f.hasGraphite = false

/-! State-transformer view of the FaceMetrics calls, used to express that
no call mutates the face and that results depend only on the face and
the call's own arguments (spec sections 3 and 5). -/

/-- One FaceMetrics call together with its arguments. -/
inductive MQuery where
  | qUpem
  | qGlyphName (g : GID)
  | qFontHExtents (coords : List ℚ)
  | qFontVExtents (coords : List ℚ)
  | qNominalGlyph (r : Int)
  | qHAdvance (g : GID) (coords : List ℚ)
  | qVAdvance (g : GID) (coords : List ℚ)
  | qHOrigin (g : GID) (coords : List ℚ)
  | qVOrigin (g : GID) (coords : List ℚ)
  | qExtents (g : GID) (coords : List ℚ) (x : Nat) (y : Nat)
  | qNormalize (coords : List ℚ)
deriving DecidableEq

/-- Result of one FaceMetrics call. -/
inductive MAnswer where
  | aNat (n : Nat)
  | aStr (s : String)
  | aFontExt (e : Option FontExtents)
  | aGlyph (g : Option GID)
  | aAdvance (q : ℚ)
  | aOrigin (p : Option (Int × Int))
  | aExtents (e : Option GlyphExtents)
  | aCoords (c : List ℚ)
deriving DecidableEq

/-- Modelled from the spec: a single FaceMetrics call as a state
transformer on the face; each call computes its answer from the face's
static data and the caller-supplied arguments and hands the face back
(spec section 5: all queries are side-effect-free reads). -/
def runQuery (f : FaceData) : MQuery → MAnswer × FaceData
  | .qUpem => (.aNat f.Upem, f)
  | .qGlyphName g => (.aStr (f.GlyphName g), f)
  | .qFontHExtents coords => (.aFontExt (f.FontHExtents coords), f)
  | .qFontVExtents coords => (.aFontExt (f.FontVExtents coords), f)
  | .qNominalGlyph r => (.aGlyph (f.NominalGlyph r), f)
  | .qHAdvance g coords => (.aAdvance (f.HorizontalAdvance g coords), f)
  | .qVAdvance g coords => (.aAdvance (f.VerticalAdvance g coords), f)
  | .qHOrigin g coords => (.aOrigin (f.GlyphHOrigin g coords), f)
  | .qVOrigin g coords => (.aOrigin (f.GlyphVOrigin g coords), f)
  | .qExtents g coords x y => (.aExtents (f.GlyphExtents g coords x y), f)
  | .qNormalize coords => (.aCoords (f.NormalizeVariations coords), f)

/-- Sequential execution of a list of FaceMetrics calls, threading the
face state through every call. -/
def runQueries (f : FaceData) : List MQuery → List MAnswer × FaceData
  | [] => ([], f)
  | q :: qs =>
    let r := runQuery f q
    let rs := runQueries r.2 qs
    (r.1 :: rs.1, rs.2)

theorem runQuery_state (f : FaceData) (q : MQuery) : (runQuery f q).2 = f := by
  cases q <;> rfl

/-! Helper lemmas about keyed lookup. -/

theorem lookupA_mem {β : Type} {k : Nat} {v : β} :
    ∀ {l : List (Nat × β)}, lookupA k l = some v → (k, v) ∈ l
  | [], h => by simp [lookupA] at h
  | (a, b) :: t, h => by
    by_cases hak : a = k
    · subst hak
      simp [lookupA] at h
      simp [h]
    · simp [lookupA, hak] at h
      exact List.mem_cons_of_mem _ (lookupA_mem h)

theorem lookupR_mem {β : Type} {k : Int} {v : β} :
    ∀ {l : List (Int × β)}, lookupR k l = some v → (k, v) ∈ l
  | [], h => by simp [lookupR] at h
  | (a, b) :: t, h => by
    by_cases hak : a = k
    · subst hak
      simp [lookupR] at h
      simp [h]
    · simp [lookupR, hak] at h
      exact List.mem_cons_of_mem _ (lookupR_mem h)

theorem lookupR_isSome_iff {β : Type} (k : Int) :
    ∀ (l : List (Int × β)), (lookupR k l).isSome = true ↔ ∃ v, (k, v) ∈ l
  | [] => by simp [lookupR]
  | (a, b) :: t => by
    by_cases hak : a = k
    · subst hak
      simp [lookupR]
    · simp only [lookupR, if_neg hak]
      rw [lookupR_isSome_iff k t]
      constructor
      · rintro ⟨v, hv⟩
        exact ⟨v, List.mem_cons_of_mem _ hv⟩
      · rintro ⟨v, hv⟩
        rcases List.mem_cons.mp hv with h | h
        · exact absurd (congrArg Prod.fst h).symm hak
        · exact ⟨v, h⟩

/-! Helper lemmas about bitmap strike selection. -/

theorem betterStrike_cases (req : Nat) (a b : Strike) :
    betterStrike req a b = a ∨ betterStrike req a b = b := by
  unfold betterStrike
  split_ifs <;> simp

theorem betterStrike_opt (req : Nat) (a b : Strike) :
    strikeDist (betterStrike req a b).Ppem req ≤ strikeDist a.Ppem req ∧
    strikeDist (betterStrike req a b).Ppem req ≤ strikeDist b.Ppem req ∧
    (strikeDist a.Ppem req = strikeDist (betterStrike req a b).Ppem req →
      a.Ppem ≤ (betterStrike req a b).Ppem) ∧
    (strikeDist b.Ppem req = strikeDist (betterStrike req a b).Ppem req →
      b.Ppem ≤ (betterStrike req a b).Ppem) := by
  unfold betterStrike
  split_ifs with h1 h2 h3 <;>
    refine ⟨by omega, by omega, fun h => by omega, fun h => by omega⟩

theorem chooseStrike_eq_none_iff (req : Nat) :
    ∀ (l : List Strike), chooseStrike req l = none ↔ l = []
  | [] => by simp [chooseStrike]
  | s :: rest => by
    unfold chooseStrike
    cases chooseStrike req rest <;> simp

theorem chooseStrike_opt (req : Nat) :
    ∀ (l : List Strike) (s : Strike), chooseStrike req l = some s →
      s ∈ l ∧ ∀ t ∈ l, strikeDist s.Ppem req ≤ strikeDist t.Ppem req ∧
        (strikeDist t.Ppem req = strikeDist s.Ppem req → t.Ppem ≤ s.Ppem)
  | [], s, h => by simp [chooseStrike] at h
  | a :: rest, s, h => by
    rw [chooseStrike] at h
    cases hr : chooseStrike req rest with
    | none =>
      rw [hr] at h
      have hrest : rest = [] := (chooseStrike_eq_none_iff req rest).mp hr
      subst hrest
      simp only [Option.some.injEq] at h
      subst h
      refine ⟨List.mem_singleton_self a, ?_⟩
      intro t ht
      rw [List.mem_singleton] at ht
      subst ht
      exact ⟨le_refl _, fun _ => le_refl _⟩
    | some b =>
      rw [hr] at h
      simp only [Option.some.injEq] at h
      subst h
      obtain ⟨hbmem, hbopt⟩ := chooseStrike_opt req rest b hr
      have hbs := betterStrike_opt req a b
      constructor
      · rcases betterStrike_cases req a b with hc | hc <;> rw [hc]
        · exact List.mem_cons_self a rest
        · exact List.mem_cons_of_mem _ hbmem
      · intro t ht
        rcases List.mem_cons.mp ht with hta | htr
        · subst hta
          exact ⟨hbs.1, hbs.2.2.1⟩
        · obtain ⟨hd, htie⟩ := hbopt t htr
          refine ⟨le_trans hbs.2.1 hd, fun hteq => ?_⟩
          have hbd : strikeDist b.Ppem req =
              strikeDist (betterStrike req a b).Ppem req := le_antisymm (by omega) hbs.2.1
          have h1 : t.Ppem ≤ b.Ppem := htie (by omega)
          have h2 : b.Ppem ≤ (betterStrike req a b).Ppem := hbs.2.2.2 hbd
          omega

/-! Helper lemmas about variation normalization. -/

theorem normalizeAxis_default (a : VarAxis)
    (h1 : a.Minimum ≤ a.Default) (h2 : a.Default ≤ a.Maximum) :
    normalizeAxis a a.Default = 0 := by
  have hc : clampAxis a a.Default = a.Default := by
    rw [clampAxis, max_eq_left h1, min_eq_left h2]
  simp [normalizeAxis, hc]

theorem normalizeAxis_min (a : VarAxis)
    (h1 : a.Minimum < a.Default) (h2 : a.Default ≤ a.Maximum) :
    normalizeAxis a a.Minimum = -1 := by
  have hc : clampAxis a a.Minimum = a.Minimum := by
    rw [clampAxis, max_self, min_eq_left (le_trans h1.le h2)]
  have hne : a.Default ≠ a.Minimum := h1.ne'
  have hsub : a.Default - a.Minimum ≠ 0 := sub_ne_zero.mpr hne
  rw [normalizeAxis, hc, if_pos h1, if_neg hne, div_eq_iff hsub]
  ring

theorem normalizeAxis_max (a : VarAxis)
    (h1 : a.Minimum ≤ a.Default) (h2 : a.Default < a.Maximum) :
    normalizeAxis a a.Maximum = 1 := by
  have hc : clampAxis a a.Maximum = a.Maximum := by
    rw [clampAxis, max_eq_left (h1.trans h2.le), min_self]
  have hne : a.Default ≠ a.Maximum := h2.ne
  have hsub : a.Maximum - a.Default ≠ 0 := sub_ne_zero.mpr hne.symm
  rw [normalizeAxis, hc, if_neg (not_lt.mpr h2.le), if_pos h2, if_neg hne,
    div_self hsub]

theorem normCoords_map (fn : VarAxis → ℚ) (out : ℚ) :
    ∀ (axes : List VarAxis), (∀ a ∈ axes, normalizeAxis a (fn a) = out) →
      normCoords axes (axes.map fn) = axes.map (fun _ => out)
  | [], _ => rfl
  | a :: as, h => by
    simp only [List.map_cons, normCoords]
    rw [h a (List.mem_cons_self a as),
      normCoords_map fn out as (fun b hb => h b (List.mem_cons_of_mem _ hb))]

theorem normCoords_length :
    ∀ (axes : List VarAxis) (vs : List ℚ),
      (normCoords axes vs).length = min axes.length vs.length
  | [], vs => by simp [normCoords]
  | a :: as, [] => by simp [normCoords]
  | a :: as, v :: vs => by
    simp only [normCoords, List.length_cons]
    rw [normCoords_length as vs]
    omega

/-! Concrete faces used to witness the contract theorems. -/

/-- Face holding no data at all, the base for the concrete faces below. -/
def baseFace : FaceData where
  upem := none
  glyphCount := 0
  glyphNames := []
  hExtents := none
  vExtents := none
  cmap := []
  hAdvances := []
  vAdvances := []
  hvarDeltas := []
  hOrigins := []
  vOrigins := []
  outlineExtents := []
  strikes := []
  isBitmap := false
  axes := []

/-- Face with an explicit units-per-em of 2048, two glyphs, and explicit
advance data only for glyph 1. -/
def face2048 : FaceData :=
  { baseFace with upem := some 2048, glyphCount := 2, hAdvances := [(1, 600)] }

/-- Variable face with two axes. -/
def varFace : FaceData :=
  { baseFace with axes := [⟨100, 400, 900⟩, ⟨1, 2, 3⟩] }

/-- Extents stored at the 20ppem strike of the bitmap face. -/
def ext20 : GlyphExtents := ⟨1, 2, 20, -20⟩

/-- Extents stored at the 40ppem strike of the bitmap face. -/
def ext40 : GlyphExtents := ⟨2, 4, 40, -40⟩

/-- Bitmap face storing extents for glyph 0 only at 20ppem and 40ppem. -/
def bitmapFace : FaceData :=
  { baseFace with
    glyphCount := 1
    isBitmap := true
    strikes := [⟨20, [(0, ext20)]⟩, ⟨40, [(0, ext40)]⟩] }

/-- Face mapping the code point 65 to glyph 1. -/
def cmapFace : FaceData :=
  { baseFace with glyphCount := 2, cmap := [(65, 1)] }

/-- Face whose glyph 0 has the fractional advance 1/2. -/
def fracFace : FaceData :=
  { baseFace with glyphCount := 1, hAdvances := [(0, 1 / 2)] }

/-- Face whose glyph 0 has an explicit horizontal origin (10, -5). -/
def originFace : FaceData :=
  { baseFace with glyphCount := 1, hOrigins := [(0, (10, -5))] }

/-- Opentype face with no advanced layout tables at all. -/
def bareOTFace : FaceOT where
  metrics := baseFace
  gdefClass := none
  trakEntries := []
  ankrAnchors := []
  featNames := []
  morxChains := []
  kernSubtables := []
  kerxSubtables := []
  gsubLookups := []
  gposLookups := []
  hasGraphite := false
  graphiteVeto := false

theorem face2048_wf : FaceWF face2048 := by
  refine ⟨?_, ?_, ?_, ?_⟩ <;> intro x hx <;>
    simp [face2048, baseFace] at hx
  omega

theorem originFace_wf : FaceWF originFace := by
  refine ⟨?_, ?_, ?_, ?_⟩ <;> intro x hx <;>
    simp [originFace, baseFace] at hx
  subst hx
  norm_num [Int32Range]

/-! Claim theorems. -/

/-- C1: for every face that provides no explicit units-per-em value,
Upem() returns exactly 1000; for a face with an explicit value it returns
that value, which is a uint16 for well-formed faces. -/
theorem upem_explicit_or_fallback (f : FaceData) :
    (f.upem = none → f.Upem = 1000) ∧
    (∀ v, f.upem = some v → f.Upem = v) ∧
    (FaceWF f → f.Upem < 65536) := by
  refine ⟨fun h => ?_, fun v h => ?_, fun hwf => ?_⟩
  · simp [FaceData.Upem, h, upemFallback]
  · simp [FaceData.Upem, h]
  · cases hu : f.upem with
    | none => simp [FaceData.Upem, hu, upemFallback]
    | some u =>
      have hb := (hwf.1 u hu).2
      simpa [FaceData.Upem, hu] using hb

/-- Witness for C1 at concrete faces: the fallback on a face without an
explicit value, and the explicit value on a face with one. -/
theorem upem_explicit_or_fallback_w :
    baseFace.Upem = 1000 ∧ face2048.Upem = 2048 :=
  ⟨(upem_explicit_or_fallback baseFace).1 rfl,
   (upem_explicit_or_fallback face2048).2.1 2048 rfl⟩

/-- C2: HorizontalAdvance returns the upem default for a valid glyph
lacking explicit advance data and exactly 0 for an invalid glyph id, and
the two results are distinguishable since a well-formed face has a
nonzero upem. -/
theorem horizontal_advance_default_and_invalid (f : FaceData) (hwf : FaceWF f)
    (g : GID) (coords : List ℚ) :
    (g < f.glyphCount → lookupA g f.hAdvances = none →
      f.HorizontalAdvance g coords = (f.Upem : ℚ)) ∧
    (f.glyphCount ≤ g → f.HorizontalAdvance g coords = 0) ∧
    (f.Upem : ℚ) ≠ 0 := by
  refine ⟨fun hv hl => ?_, fun hinv => ?_, ?_⟩
  · simp [FaceData.HorizontalAdvance, hv, hl]
  · simp [FaceData.HorizontalAdvance, not_lt.mpr hinv]
  · have hpos : 0 < f.Upem := by
      cases hu : f.upem with
      | none => simp [FaceData.Upem, hu, upemFallback]
      | some u => simpa [FaceData.Upem, hu] using (hwf.1 u hu).1
    exact_mod_cast hpos.ne'

/-- Witness for C2: on the concrete face, glyph 0 is valid but has no
advance data and gets the upem default 2048, while glyph 5 is invalid
and gets 0. -/
theorem horizontal_advance_default_and_invalid_w :
    face2048.HorizontalAdvance 0 [] = 2048 ∧
    face2048.HorizontalAdvance 5 [] = 0 := by
  have h0 :=
    (horizontal_advance_default_and_invalid face2048 face2048_wf 0 []).1
      (by decide) rfl
  have h5 :=
    (horizontal_advance_default_and_invalid face2048 face2048_wf 5 []).2.1
      (by decide)
  exact ⟨h0.trans (by norm_num [face2048, baseFace, FaceData.Upem]), h5⟩

/-- C3: NormalizeVariations maps, on every axis of a variable face whose
axes have their default strictly between minimum and maximum, the
declared default to 0, the declared minimum to -1 and the declared
maximum to 1. -/
theorem normalize_maps_default_min_max (f : FaceData)
    (h : ∀ a ∈ f.axes, a.Minimum < a.Default ∧ a.Default < a.Maximum) :
    f.NormalizeVariations (f.axes.map VarAxis.Default) =
      f.axes.map (fun _ => (0 : ℚ)) ∧
    f.NormalizeVariations (f.axes.map VarAxis.Minimum) =
      f.axes.map (fun _ => (-1 : ℚ)) ∧
    f.NormalizeVariations (f.axes.map VarAxis.Maximum) =
      f.axes.map (fun _ => (1 : ℚ)) := by
  refine ⟨?_, ?_, ?_⟩ <;> rw [FaceData.NormalizeVariations]
  · exact normCoords_map _ _ f.axes
      (fun a ha => normalizeAxis_default a (h a ha).1.le (h a ha).2.le)
  · exact normCoords_map _ _ f.axes
      (fun a ha => normalizeAxis_min a (h a ha).1 (h a ha).2.le)
  · exact normCoords_map _ _ f.axes
      (fun a ha => normalizeAxis_max a (h a ha).1.le (h a ha).2)

/-- Witness for C3 on the two-axis concrete variable face. -/
theorem normalize_maps_default_min_max_w :
    varFace.NormalizeVariations [400, 2] = [0, 0] ∧
    varFace.NormalizeVariations [100, 1] = [-1, -1] ∧
    varFace.NormalizeVariations [900, 3] = [1, 1] := by
  have hs : ∀ a ∈ varFace.axes, a.Minimum < a.Default ∧ a.Default < a.Maximum := by
    intro a ha
    simp [varFace, baseFace] at ha
    rcases ha with h | h <;> subst h <;> constructor <;> norm_num
  have h := normalize_maps_default_min_max varFace hs
  refine ⟨?_, ?_, ?_⟩
  · have := h.1
    simpa [varFace, baseFace] using this
  · have := h.2.1
    simpa [varFace, baseFace] using this
  · have := h.2.2
    simpa [varFace, baseFace] using this

/-- C4: on a non-variable face (no variation axes) NormalizeVariations
returns the empty sequence for every input, which is the no-op the
contract allows, and it is idempotent. -/
theorem normalize_identity_nonvariable (f : FaceData) (h : f.axes = [])
    (coords : List ℚ) :
    f.NormalizeVariations coords = [] ∧
    f.NormalizeVariations (f.NormalizeVariations coords) =
      f.NormalizeVariations coords := by
  have he : ∀ cs : List ℚ, f.NormalizeVariations cs = [] := by
    intro cs
    rw [FaceData.NormalizeVariations, h]
    cases cs <;> rfl
  exact ⟨he coords, by rw [he coords, he []]⟩

/-- Witness for C4 on a concrete non-variable face and input. -/
theorem normalize_identity_nonvariable_w :
    baseFace.NormalizeVariations [5] = [] ∧
    baseFace.NormalizeVariations (baseFace.NormalizeVariations [5]) =
      baseFace.NormalizeVariations [5] :=
  normalize_identity_nonvariable baseFace rfl [5]

/-- C5: for every bitmap-backed glyph, GlyphExtents selects a stored
strike with the smallest absolute distance to the requested pixel size,
and on an exact tie a strike whose resolution is at least every
tied-distance resolution (the larger one); in particular, on the face
storing glyph 0 only at 20ppem and 40ppem, a 25ppem request selects the
20ppem entry. -/
theorem glyph_extents_nearest_strike :
    (∀ (f : FaceData) (g : GID) (coords : List ℚ) (x y : Nat)
      (e : GlyphExtents), f.isBitmap = true →
      f.GlyphExtents g coords x y = some e →
      ∃ s, s ∈ f.strikes ∧ lookupA g s.Glyphs = some e ∧
        ∀ t ∈ f.strikes, strikeDist s.Ppem x ≤ strikeDist t.Ppem x ∧
          (strikeDist t.Ppem x = strikeDist s.Ppem x → t.Ppem ≤ s.Ppem)) ∧
    bitmapFace.GlyphExtents 0 [] 25 25 = some ext20 := by
  constructor
  · intro f g coords x y e hb he
    rw [FaceData.GlyphExtents] at he
    by_cases hg : g < f.glyphCount
    · rw [if_pos hg, hb] at he
      simp only [if_true] at he
      cases hc : chooseStrike x f.strikes with
      | none => rw [hc] at he; exact absurd he (by simp)
      | some s =>
        rw [hc] at he
        obtain ⟨hm, hopt⟩ := chooseStrike_opt x f.strikes s hc
        exact ⟨s, hm, he, hopt⟩
    · rw [if_neg hg] at he
      exact absurd he (by simp)
  · rfl

/-- Witness for C5: the bitmap face is bitmap-backed, the 25ppem request
on glyph 0 finds extents, and the hypotheses of the nearest-strike
theorem are satisfied there. -/
theorem glyph_extents_nearest_strike_w :
    bitmapFace.isBitmap = true ∧
    (bitmapFace.GlyphExtents 0 [] 25 25).isSome = true := by
  obtain ⟨s, hmem, hl, hopt⟩ :=
    glyph_extents_nearest_strike.1 bitmapFace 0 [] 25 25 ext20 rfl
      glyph_extents_nearest_strike.2
  refine ⟨rfl, ?_⟩
  rw [glyph_extents_nearest_strike.2]
  rfl

/-- C6: an opentype face storing none of the advanced layout tables
returns a TablesLayout whose every sub-table tests as empty under its
table-specific emptiness rule, and its IsGraphite probe reports the
capability as unsupported. -/
theorem tables_layout_empty_and_no_graphite (f : FaceOT)
    (h : noAdvancedTables f) :
    f.TablesLayout.GDEF.isEmpty = true ∧
    f.TablesLayout.Trak.isEmpty = true ∧
    f.TablesLayout.Ankr.isEmpty = true ∧
    f.TablesLayout.Feat.isEmpty = true ∧
    f.TablesLayout.Morx.isEmpty = true ∧
    f.TablesLayout.Kern.isEmpty = true ∧
    f.TablesLayout.Kerx.isEmpty = true ∧
    f.TablesLayout.GSUB.isEmpty = true ∧
    f.TablesLayout.GPOS.isEmpty = true ∧
    (f.IsGraphite).2 = false := by
  obtain ⟨h1, h2, h3, h4, h5, h6, h7, h8, h9, h10⟩ := h
  refine ⟨?_, ?_, ?_, ?_, ?_, ?_, ?_, ?_, ?_, ?_⟩ <;>
    simp [FaceOT.TablesLayout, FaceOT.IsGraphite, TableGDEF.isEmpty,
      TableTrak.isEmpty, TableAnkr.isEmpty, TableFeat.isEmpty,
      TableMorx.isEmpty, TableKernx.isEmpty, TableGSUB.isEmpty,
      TableGPOS.isEmpty, h1, h2, h3, h4, h5, h6, h7, h8, h9, h10]

/-- Witness for C6 on the concrete bare opentype face. -/
theorem tables_layout_empty_and_no_graphite_w :
    bareOTFace.TablesLayout.GDEF.isEmpty = true ∧
    bareOTFace.TablesLayout.Trak.isEmpty = true ∧
    bareOTFace.TablesLayout.Ankr.isEmpty = true ∧
    bareOTFace.TablesLayout.Feat.isEmpty = true ∧
    bareOTFace.TablesLayout.Morx.isEmpty = true ∧
    bareOTFace.TablesLayout.Kern.isEmpty = true ∧
    bareOTFace.TablesLayout.Kerx.isEmpty = true ∧
    bareOTFace.TablesLayout.GSUB.isEmpty = true ∧
    bareOTFace.TablesLayout.GPOS.isEmpty = true ∧
    (bareOTFace.IsGraphite).2 = false :=
  tables_layout_empty_and_no_graphite bareOTFace
    ⟨rfl, rfl, rfl, rfl, rfl, rfl, rfl, rfl, rfl, rfl⟩

/-- C7: on an invalid glyph id every per-glyph FaceMetrics operation
returns its documented zero/default/not-found result, and a coordinate
sequence of the wrong axis count is absorbed by truncation; every
operation of the embedding is a total function, which models that no
call aborts or fails fatally. -/
theorem metrics_degrade_gracefully :
    (∀ (f : FaceData) (g : GID) (coords : List ℚ), f.glyphCount ≤ g →
      f.GlyphName g = ("") ∧
      f.HorizontalAdvance g coords = 0 ∧
      f.VerticalAdvance g coords = 0 ∧
      f.GlyphHOrigin g coords = none ∧
      f.GlyphVOrigin g coords = none ∧
      ∀ x y : Nat, f.GlyphExtents g coords x y = none) ∧
    (∀ (f : FaceData) (coords : List ℚ),
      (f.NormalizeVariations coords).length =
        min f.axes.length coords.length) := by
  constructor
  · intro f g coords h
    have hng : ¬ g < f.glyphCount := not_lt.mpr h
    refine ⟨?_, ?_, ?_, ?_, ?_, fun x y => ?_⟩ <;>
      simp [FaceData.GlyphName, FaceData.HorizontalAdvance,
        FaceData.VerticalAdvance, FaceData.GlyphHOrigin,
        FaceData.GlyphVOrigin, FaceData.GlyphExtents, hng]
  · intro f coords
    rw [FaceData.NormalizeVariations]
    exact normCoords_length f.axes coords

/-- Witness for C7: the invalid glyph id 5 on the two-glyph concrete face
gets every documented default, and a one-coordinate input on that
axis-less face normalizes to the empty sequence. -/
theorem metrics_degrade_gracefully_w :
    face2048.GlyphName 5 = ("") ∧
    face2048.HorizontalAdvance 5 [] = 0 ∧
    face2048.GlyphHOrigin 5 [] = none ∧
    face2048.GlyphExtents 5 [] 10 10 = none ∧
    (face2048.NormalizeVariations [3]).length = 0 := by
  obtain ⟨h1, h2, h3, h4, h5, h6⟩ :=
    metrics_degrade_gracefully.1 face2048 5 [] (by decide)
  refine ⟨h1, h2, h4, h6 10 10, ?_⟩
  rw [metrics_degrade_gracefully.2 face2048 [3]]
  rfl

/-- C8: NominalGlyph is a total function of the face and the rune that
returns some glyph exactly when the cmap maps the rune, and none — the
only not-found signal — otherwise; any returned glyph is the mapped
one. -/
theorem nominal_glyph_total_option (f : FaceData) (r : Int) :
    ((f.NominalGlyph r).isSome = true ↔ ∃ g, (r, g) ∈ f.cmap) ∧
    ∀ g, f.NominalGlyph r = some g → (r, g) ∈ f.cmap := by
  constructor
  · rw [FaceData.NominalGlyph]
    exact lookupR_isSome_iff r f.cmap
  · intro g h
    exact lookupR_mem h

/-- Witness for C8: the mapped code point 65 is found and mapped to
glyph 1, and the unmapped code point 66 reports not-found. -/
theorem nominal_glyph_total_option_w :
    (cmapFace.NominalGlyph 65).isSome = true ∧
    (65, 1) ∈ cmapFace.cmap ∧
    cmapFace.NominalGlyph 66 = none := by
  refine ⟨?_, ?_, rfl⟩
  · exact (nominal_glyph_total_option cmapFace 65).1.mpr
      ⟨1, by simp [cmapFace, baseFace]⟩
  · exact (nominal_glyph_total_option cmapFace 65).2 1 rfl

/-- C9: every FaceMetrics call, viewed as a state transformer, hands the
face back unchanged, and the answers of any sequence of calls are those
each call computes from the original face and its own arguments alone —
results are deterministic and independent of call order or history. -/
theorem metrics_queries_pure (f : FaceData) (qs : List MQuery) :
    (runQueries f qs).2 = f ∧
    (runQueries f qs).1 = qs.map (fun q => (runQuery f q).1) := by
  induction qs with
  | nil => exact ⟨rfl, rfl⟩
  | cons q qs ih =>
    refine ⟨?_, ?_⟩
    · show (runQueries (runQuery f q).2 qs).2 = f
      rw [runQuery_state]
      exact ih.1
    · show (runQuery f q).1 :: (runQueries (runQuery f q).2 qs).1 = _
      rw [runQuery_state, List.map_cons, ih.2]

/-- C10: glyph origins are returned as int32 whole-font-unit pairs — on a
well-formed face every returned origin coordinate lies in the int32
range — while the float32-typed advance metric can be fractional, as the
concrete face with advance 1/2 shows. -/
theorem origins_int32_advances_fractional :
    (∀ (f : FaceData), FaceWF f →
      ∀ (g : GID) (coords : List ℚ) (p : Int × Int),
        f.GlyphHOrigin g coords = some p →
        Int32Range p.1 ∧ Int32Range p.2) ∧
    (∀ (f : FaceData), FaceWF f →
      ∀ (g : GID) (coords : List ℚ) (p : Int × Int),
        f.GlyphVOrigin g coords = some p →
        Int32Range p.1 ∧ Int32Range p.2) ∧
    fracFace.HorizontalAdvance 0 [] = 1 / 2 ∧
    ∀ n : Int, (n : ℚ) ≠ fracFace.HorizontalAdvance 0 [] := by
  have hadv : fracFace.HorizontalAdvance 0 [] = 1 / 2 := by
    norm_num [FaceData.HorizontalAdvance, fracFace, baseFace, lookupA, dotQ]
  refine ⟨?_, ?_, hadv, ?_⟩
  · intro f hwf g coords p hp
    rw [FaceData.GlyphHOrigin] at hp
    by_cases hg : g < f.glyphCount
    · rw [if_pos hg] at hp
      exact hwf.2.2.1 (g, p) (lookupA_mem hp)
    · rw [if_neg hg] at hp
      exact absurd hp (by simp)
  · intro f hwf g coords p hp
    rw [FaceData.GlyphVOrigin] at hp
    by_cases hg : g < f.glyphCount
    · rw [if_pos hg] at hp
      exact hwf.2.2.2 (g, p) (lookupA_mem hp)
    · rw [if_neg hg] at hp
      exact absurd hp (by simp)
  · intro n hn
    rw [hadv] at hn
    have h2 : (2 : ℚ) * (n : ℚ) = 1 := by
      rw [hn]
      norm_num
    have h3 : (2 * n : Int) = 1 := by exact_mod_cast h2
    omega

/-- Witness for C10: the origin stored for glyph 0 of the concrete face
is returned and lies in the int32 range. -/
theorem origins_int32_advances_fractional_w :
    Int32Range 10 ∧ Int32Range (-5) :=
  origins_int32_advances_fractional.1 originFace originFace_wf 0 [] (10, -5) rfl

end GoFont
